import Mathlib

/-!
Verification of the Oceanside frontend recording client.

The development shallowly embeds the parts of the code that the checked
properties are about:

* the chunked recorder of the session page (`startLocalRecording`,
  `startNewRecorder`, its `ondataavailable` handler, the 5-second slice
  timer and `stopRecording`), modelled as a step function over an explicit
  recorder state driven by timed events;
* the immediate per-chunk upload (`uploadChunkImmediately`);
* the recording countdown (`startRecordingCountdown`);
* the `WebRTCManager` peer-connection map with its offer / answer / ICE
  handlers and the local-track toggles;
* the `WebSocketManager` reconnection logic.

Wall-clock instants (`Date.now()`) are embedded as `Int` epoch
milliseconds; segment offsets are `Int` milliseconds relative to the
start of the recording run.
-/

namespace ChunkRecorder

/-- A produced recording segment ("chunk"): its 1-based index and its
start/end offsets in milliseconds relative to the recording start. -/
structure Chunk where
  index : Nat
  startTime : Int
  endTime : Int
deriving DecidableEq, Repr

/-- The mutable state of the chunk recorder on the session page:
`isRecording` (React state), whether a local media stream is available
(`localStreamRef`), and the refs `chunkIndexRef`, `recordingStartTimeRef`,
`currentChunkStartTimeRef`, `chunkRecordingStartTimeRef`; `recorderActive`
embeds `mediaRecorderRef.current.state === "recording"` and `timerPending`
embeds a pending `recordingTimerRef` timeout. -/
structure RecorderState where
  isRecording : Bool
  hasStream : Bool
  chunkIndex : Nat
  recordingStartTime : Option Int
  currentChunkStartTime : Int
  chunkRecordingStartTime : Option Int
  recorderActive : Bool
  timerPending : Bool
deriving DecidableEq, Repr

/-- JavaScript truthiness of a nullable number: `null`/`undefined` and `0`
are falsy, every other number is truthy. -/
def truthy : Option Int → Bool
  | none => false
  | some t => t != 0

/-- The `mediaRecorder.ondataavailable` handler: when the blob is nonempty
and both time refs are truthy, it increments the chunk index, computes the
actual slice duration `Date.now() - chunkRecordingStartTimeRef.current`,
emits the chunk `[currentChunkStartTime, currentChunkStartTime + duration)`
and advances the cumulative offset to the chunk's end. -/
def onData (now : Int) (size : Nat) (s : RecorderState) :
    RecorderState × Option Chunk :=
  if 0 < size ∧ truthy s.recordingStartTime = true ∧
      truthy s.chunkRecordingStartTime = true then
    let t0 := s.chunkRecordingStartTime.getD 0
    let actualChunkDuration := now - t0
    let startT := s.currentChunkStartTime
    let endT := startT + actualChunkDuration
    ({ s with chunkIndex := s.chunkIndex + 1, currentChunkStartTime := endT },
      some { index := s.chunkIndex + 1, startTime := startT, endTime := endT })
  else (s, none)

/-- `startNewRecorder`: bails out unless recording is on and a stream
exists; otherwise starts a fresh `MediaRecorder`, records the slice start
wall-clock time and arms the 5-second auto-stop timer. -/
def startNewRecorder (now : Int) (s : RecorderState) : RecorderState :=
  if !s.isRecording || !s.hasStream then s
  else { s with recorderActive := true, chunkRecordingStartTime := some now,
                timerPending := true }

/-- `startLocalRecording`: returns early without a stream; otherwise
resets the chunk index to 0, records the recording start time, resets the
cumulative offset to 0 and starts the first chunk recorder. -/
def startLocalRecording (now : Int) (s : RecorderState) : RecorderState :=
  if !s.hasStream then s
  else
    startNewRecorder now
      { s with chunkIndex := 0, recordingStartTime := some now,
               currentChunkStartTime := 0 }

/-- The 5-second slice timer firing: if the recorder is still recording
and the run is on, `mediaRecorder.stop()` is called, which fires
`ondataavailable` with the buffered slice data. -/
def timerFire (now : Int) (size : Nat) (s : RecorderState) :
    RecorderState × Option Chunk :=
  if s.recorderActive && s.isRecording then
    onData now size
      { s with recorderActive := false, timerPending := false }
  else (s, none)

/-- The `onstop` handler's delayed restart: 300 ms after a slice stops,
`startNewRecorder` runs again (it re-checks `isRecording` and the
stream). -/
def restart (now : Int) (s : RecorderState) : RecorderState :=
  startNewRecorder now s

/-- `stopRecording`: sets `isRecording` to false, clears the pending
slice timer and, if the current chunk recorder is still recording, stops
it, which fires `ondataavailable` one final time. -/
def stopRecording (now : Int) (size : Nat) (s : RecorderState) :
    RecorderState × Option Chunk :=
  if s.recorderActive then
    onData now size
      { s with isRecording := false, timerPending := false,
               recorderActive := false }
  else
    ({ s with isRecording := false, timerPending := false }, none)

/-- The timed events that drive one recording run after it has started. -/
inductive RecEvent where
  | timerFire (now : Int) (size : Nat)
  | restart (now : Int)
  | stop (now : Int) (size : Nat)
deriving DecidableEq, Repr

/-- One event step of the recorder, returning the produced chunk if any. -/
def step (s : RecorderState) : RecEvent → RecorderState × Option Chunk
  | .timerFire now size => timerFire now size s
  | .restart now => (restart now s, none)
  | .stop now size => stopRecording now size s

/-- Run a recording trace, collecting the produced chunks in order. -/
def run (s : RecorderState) : List RecEvent → RecorderState × List Chunk
  | [] => (s, [])
  | e :: es =>
    let p := step s e
    let q := run p.1 es
    (q.1, p.2.toList ++ q.2)

/-- `chainFromB n off cs` holds when the chunks `cs` are indexed
consecutively starting at `n`, the first starts at offset `off`, and each
later chunk starts exactly at the previous chunk's end. -/
def chainFromB : Nat → Int → List Chunk → Bool
  | _, _, [] => true
  | n, off, c :: rest =>
    c.index == n && c.startTime == off && chainFromB (n + 1) c.endTime rest

/-- A fresh client state: not recording, no recording-run refs set. -/
def initState (hasStream : Bool) : RecorderState :=
  { isRecording := false, hasStream := hasStream, chunkIndex := 0,
    recordingStartTime := none, currentChunkStartTime := 0,
    chunkRecordingStartTime := none, recorderActive := false,
    timerPending := false }

theorem step_spec (s : RecorderState) (e : RecEvent) :
    match (step s e).2 with
    | none =>
        (step s e).1.chunkIndex = s.chunkIndex ∧
          (step s e).1.currentChunkStartTime = s.currentChunkStartTime
    | some c =>
        c.index = s.chunkIndex + 1 ∧ c.startTime = s.currentChunkStartTime ∧
          (step s e).1.chunkIndex = s.chunkIndex + 1 ∧
          (step s e).1.currentChunkStartTime = c.endTime := by
  cases e <;>
    simp only [step, timerFire, restart, startNewRecorder, stopRecording,
      onData] <;>
    split_ifs <;> simp

theorem step_none {s s1 : RecorderState} {e : RecEvent}
    (h : step s e = (s1, none)) :
    s1.chunkIndex = s.chunkIndex ∧
      s1.currentChunkStartTime = s.currentChunkStartTime := by
  have hs := step_spec s e
  rw [h] at hs
  exact hs

theorem step_some {s s1 : RecorderState} {e : RecEvent} {c : Chunk}
    (h : step s e = (s1, some c)) :
    c.index = s.chunkIndex + 1 ∧ c.startTime = s.currentChunkStartTime ∧
      s1.chunkIndex = s.chunkIndex + 1 ∧
      s1.currentChunkStartTime = c.endTime := by
  have hs := step_spec s e
  rw [h] at hs
  exact hs

theorem run_chain (evs : List RecEvent) (s : RecorderState) :
    chainFromB (s.chunkIndex + 1) s.currentChunkStartTime (run s evs).2
      = true := by
  induction evs generalizing s with
  | nil => simp [run, chainFromB]
  | cons e es ih =>
    simp only [run]
    rcases h : step s e with ⟨s1, oc⟩
    cases oc with
    | none =>
      rcases step_none h with ⟨h1, h2⟩
      simpa [Option.toList, h1, h2] using ih s1
    | some c =>
      rcases step_some h with ⟨h1, h2, h3, h4⟩
      have ihs := ih s1
      rw [h3, h4] at ihs
      simp [Option.toList, chainFromB, h1, h2, ihs]

/-- C1: a recording run started by `startLocalRecording` produces chunks
whose indices are `1, 2, 3, …` with the first chunk starting at offset `0`
and each later chunk starting exactly at the previous chunk's end — the
index is reset to 0 and the cumulative offset to 0 on start, the index is
incremented exactly once per produced chunk, and the next chunk's start is
the previous chunk's computed end. -/
theorem segments_contiguous_from_start (s : RecorderState) (now : Int)
    (evs : List RecEvent) (hstream : s.hasStream = true) :
    chainFromB 1 0
      (run (startLocalRecording now { s with isRecording := true }) evs).2
      = true := by
  have h0 :
      (startLocalRecording now { s with isRecording := true }).chunkIndex = 0
        ∧ (startLocalRecording now
            { s with isRecording := true }).currentChunkStartTime = 0 := by
    simp [startLocalRecording, startNewRecorder, hstream]
  have h := run_chain evs (startLocalRecording now { s with isRecording := true })
  rw [h0.1, h0.2] at h
  exact h

/-- The nominal slice length: the auto-stop timer fires 5000 ms after a
chunk recorder starts (`CHUNK_DURATION_MS`). -/
def CHUNK_DURATION_MS : Int := 5000

theorem stop_noop_of_stopped (s : RecorderState) (now : Int) (size : Nat)
    (h1 : s.isRecording = false) (h2 : s.timerPending = false)
    (h3 : s.recorderActive = false) :
    stopRecording now size s = (s, none) := by
  obtain ⟨rec, str, ci, rst, ccs, crs, ra, tp⟩ := s
  simp only at h1 h2 h3
  subst h1 h2 h3
  simp [stopRecording]

/-- C6: stopping a started recording (active chunk recorder, recording-run
refs set, nonempty final blob, monotone clock) hands off one final chunk
whose end offset is at least its start offset; a second `stopRecording`
afterwards changes no recorder state and produces no further chunk. -/
theorem stopRecording_final_segment_then_noop
    (s : RecorderState) (now now2 : Int) (size size2 : Nat) (t0 r : Int)
    (hactive : s.recorderActive = true)
    (ht0 : s.chunkRecordingStartTime = some t0) (ht0nz : t0 ≠ 0)
    (hr : s.recordingStartTime = some r) (hrnz : r ≠ 0)
    (hsize : 0 < size) (hnow : t0 ≤ now) :
    ∃ c, (stopRecording now size s).2 = some c ∧
      c.startTime ≤ c.endTime ∧
      stopRecording now2 size2 (stopRecording now size s).1
        = ((stopRecording now size s).1, none) := by
  obtain ⟨rec, str, ci, rst, ccs, crs, ra, tp⟩ := s
  simp only at hactive ht0 hr
  subst hactive ht0 hr
  have hfirst : stopRecording now size
      (⟨rec, str, ci, some r, ccs, some t0, true, tp⟩ : RecorderState)
      = (⟨false, str, ci + 1, some r, ccs + (now - t0), some t0, false,
          false⟩,
         some { index := ci + 1, startTime := ccs,
                endTime := ccs + (now - t0) }) := by
    simp [stopRecording, onData, truthy, hsize, ht0nz, hrnz]
  refine ⟨{ index := ci + 1, startTime := ccs, endTime := ccs + (now - t0) },
    ?_, ?_, ?_⟩
  · rw [hfirst]
  · simp only
    omega
  · rw [hfirst]
    exact stop_noop_of_stopped _ now2 size2 rfl rfl rfl

theorem stopRecording_final_segment_then_noop_witness :
    ∃ c,
      (stopRecording 13000 5
        (⟨true, true, 2, some 1000, 9800, some 10800, true, true⟩
          : RecorderState)).2 = some c ∧
      c.startTime ≤ c.endTime ∧
      stopRecording 99 3
        (stopRecording 13000 5
          (⟨true, true, 2, some 1000, 9800, some 10800, true, true⟩
            : RecorderState)).1
        = ((stopRecording 13000 5
            (⟨true, true, 2, some 1000, 9800, some 10800, true, true⟩
              : RecorderState)).1, none) :=
  stopRecording_final_segment_then_noop
    (⟨true, true, 2, some 1000, 9800, some 10800, true, true⟩ : RecorderState)
    13000 99 5 3 10800 1000 rfl rfl (by decide) rfl (by decide) (by decide)
    (by decide)

/-- C7: a produced chunk's offsets are
`[currentChunkStartTime, currentChunkStartTime + actualDuration)` where
`actualDuration` is the wall-clock time elapsed between the start of that
slice's recorder and the moment the slice data became available — the
nominal 5000 ms timer length plays no part in the offsets. -/
theorem chunk_offsets_use_actual_elapsed_time
    (s : RecorderState) (now t0 : Int) (size : Nat)
    (hactive : s.recorderActive = true) (hrecd : s.isRecording = true)
    (ht0 : s.chunkRecordingStartTime = some t0) (ht0nz : t0 ≠ 0)
    (hr : truthy s.recordingStartTime = true) (hsize : 0 < size) :
    (timerFire now size s).2 =
      some { index := s.chunkIndex + 1, startTime := s.currentChunkStartTime,
             endTime := s.currentChunkStartTime + (now - t0) } := by
  obtain ⟨rec, str, ci, rst, ccs, crs, ra, tp⟩ := s
  simp only at hactive hrecd ht0 hr
  subst hactive hrecd ht0
  cases rst with
  | none => simp [truthy] at hr
  | some v =>
    simp only [truthy] at hr
    simp [timerFire, onData, truthy, hr, hsize, ht0nz]

theorem chunk_offsets_use_actual_elapsed_time_witness :
    (timerFire 25213 7
      (⟨true, true, 2, some 500, 10000, some 20000, true, true⟩
        : RecorderState)).2 =
      some { index := 3, startTime := 10000, endTime := 15213 } ∧
    (15213 : Int) - 10000 ≠ CHUNK_DURATION_MS := by
  constructor
  · have h := chunk_offsets_use_actual_elapsed_time
      (⟨true, true, 2, some 500, 10000, some 20000, true, true⟩
        : RecorderState) 25213 20000 7 rfl rfl rfl (by decide) (by decide)
      (by decide)
    simpa using h
  · decide

theorem segments_contiguous_from_start_witness :
    chainFromB 1 0
      (run (startLocalRecording 1000 { initState true with isRecording := true })
        [.timerFire 6100 9, .restart 6400, .timerFire 11450 12,
         .restart 11800, .stop 15000 4]).2 = true := by
  have h := segments_contiguous_from_start (initState true) 1000
    [.timerFire 6100 9, .restart 6400, .timerFire 11450 12,
     .restart 11800, .stop 15000 4] (by rfl)
  simpa using h

end ChunkRecorder

namespace UploadPipeline

/-- `RecordingAPI.uploadChunk`: one POST of the chunk form data to the
storage sink; the sink either accepts it or the request fails. -/
def uploadChunk (sinkOk : Bool) : Except Unit Unit :=
  if sinkOk then .ok () else .error ()

/-- `uploadChunkImmediately` for one chunk: a single call to
`RecordingAPI.uploadChunk` inside try/catch — on failure the error is
caught and a per-chunk failure toast is shown; nothing is re-attempted and
nothing is rethrown. Returns (number of upload attempts made, whether the
failure toast was shown). -/
def uploadChunkImmediately (sinkOk : Bool) : Nat × Bool :=
  match uploadChunk sinkOk with
  | .ok _ => (1, false)
  | .error _ => (1, true)

/-- A recording run together with its immediate uploads: each produced
chunk is uploaded right away with the sink outcome `sink c.index`; the
upload touches no recorder state. Returns the final recorder state, the
produced chunks and the per-chunk upload results. -/
def runUpload (sink : Nat → Bool) (s : ChunkRecorder.RecorderState) :
    List ChunkRecorder.RecEvent →
      ChunkRecorder.RecorderState × List ChunkRecorder.Chunk ×
        List (Nat × Bool)
  | [] => (s, [], [])
  | e :: es =>
    let p := ChunkRecorder.step s e
    let q := runUpload sink p.1 es
    match p.2 with
    | none => (q.1, q.2.1, q.2.2)
    | some c =>
        (q.1, c :: q.2.1, uploadChunkImmediately (sink c.index) :: q.2.2)

theorem runUpload_eq_run (sink : Nat → Bool)
    (evs : List ChunkRecorder.RecEvent) (s : ChunkRecorder.RecorderState) :
    (runUpload sink s evs).1 = (ChunkRecorder.run s evs).1 ∧
      (runUpload sink s evs).2.1 = (ChunkRecorder.run s evs).2 := by
  induction evs generalizing s with
  | nil => simp [runUpload, ChunkRecorder.run]
  | cons e es ih =>
    simp only [runUpload, ChunkRecorder.run]
    rcases h : ChunkRecorder.step s e with ⟨s1, oc⟩
    cases oc <;> simp [Option.toList, (ih s1).1, (ih s1).2]

/-- C2 counterexample: when the sink fails, `uploadChunkImmediately` makes
exactly one attempt — it never makes the more-than-one attempts the claim
requires — and merely surfaces the per-chunk failure toast. -/
theorem upload_no_retry_counterexample :
    (uploadChunkImmediately false).1 = 1 ∧
      ¬ 1 < (uploadChunkImmediately false).1 ∧
      (uploadChunkImmediately false).2 = true := by decide

/-- C2 (amended): every submitted chunk is attempted exactly once — no
retries; a failure is caught and surfaced as a per-chunk failure toast;
and upload outcomes never influence the recorder: the recording run's
final state and produced chunks are the same whatever the sink does, so a
failed chunk does not abort the run. -/
theorem upload_single_attempt_failure_surfaced_nonfatal :
    (∀ ok, (uploadChunkImmediately ok).1 = 1) ∧
    (∀ ok, (uploadChunkImmediately ok).2 = !ok) ∧
    (∀ (sink sink2 : Nat → Bool) (s : ChunkRecorder.RecorderState)
        (evs : List ChunkRecorder.RecEvent),
      (runUpload sink s evs).1 = (runUpload sink2 s evs).1 ∧
        (runUpload sink s evs).2.1 = (runUpload sink2 s evs).2.1) := by
  refine ⟨by decide, by decide, ?_⟩
  intro sink sink2 s evs
  constructor
  · rw [(runUpload_eq_run sink evs s).1, (runUpload_eq_run sink2 evs s).1]
  · rw [(runUpload_eq_run sink evs s).2, (runUpload_eq_run sink2 evs s).2]

theorem upload_single_attempt_witness :
    (uploadChunkImmediately false).1 = 1 ∧
      (uploadChunkImmediately false).2 = !false :=
  ⟨upload_single_attempt_failure_surfaced_nonfatal.1 false,
   upload_single_attempt_failure_surfaced_nonfatal.2.1 false⟩

end UploadPipeline

namespace Countdown

/-- `startRecordingCountdown` under idealized exact timers: with
`delay = startTime - Date.now()` positive it sets
`timeLeft = Math.ceil(delay / 1000)` and decrements once per 1000 ms
interval tick, calling `startLocalRecording` when `timeLeft` reaches 0 —
i.e. `ceil(delay / 1000)` whole seconds after receipt; with `delay ≤ 0`
it starts capture at once. Returns the wall-clock instant at which
`startLocalRecording` runs. -/
def captureStartMoment (now startTime : Int) : Int :=
  let delay := startTime - now
  if 0 < delay then now + 1000 * ((delay + 999) / 1000) else now

/-- C8 counterexample: a broadcast received 1500 ms before its target
start time leads to capture starting 500 ms late — outside the claimed
±200 ms tolerance. -/
theorem countdown_tolerance_counterexample :
    captureStartMoment 0 1500 = 2000 ∧
      ¬ (captureStartMoment 0 1500 - 1500 ≤ 200 ∧
          1500 - captureStartMoment 0 1500 ≤ 200) := by decide

/-- C8 (amended): for a future target start time, capture never starts
early and starts strictly less than 1000 ms after the target — the
countdown only has whole-second granularity, so the deviation is bounded
by one interval tick, not by 200 ms. -/
theorem countdown_start_within_one_second (now startTime : Int)
    (h : 0 < startTime - now) :
    startTime ≤ captureStartMoment now startTime ∧
      captureStartMoment now startTime < startTime + 1000 := by
  simp only [captureStartMoment, if_pos h]
  omega

theorem countdown_start_within_one_second_witness :
    1500 ≤ captureStartMoment 0 1500 ∧
      captureStartMoment 0 1500 < 1500 + 1000 :=
  countdown_start_within_one_second 0 1500 (by decide)

end Countdown

namespace WSManager

/-- `WebSocketManager.maxReconnectAttempts`. -/
def maxReconnectAttempts : Nat := 5

/-- `WebSocketManager.reconnectDelay` (ms). -/
def reconnectDelay : Nat := 1000

/-- The reconnect-relevant fields of a `WebSocketManager`:
`reconnectAttempts` (reset to 0 on every successful open) and
`isManualClose` (set by `disconnect`, never cleared). -/
structure WSState where
  reconnectAttempts : Nat
  isManualClose : Bool
deriving DecidableEq, Repr

/-- The transport events the manager reacts to. -/
inductive WSEvent where
  | opened
  | closed
  | manualDisconnect
deriving DecidableEq, Repr

/-- One event step. `opened` is `ws.onopen` (attempt counter reset);
`closed` is `ws.onclose`, which calls `attemptReconnect` only when the
close was not manual and fewer than `maxReconnectAttempts` attempts were
made — `attemptReconnect` increments the counter and schedules a
reconnect after `reconnectDelay * 2 ^ (attempts - 1)` ms;
`manualDisconnect` is `disconnect()`. The second component is the delay
of the reconnection attempt scheduled by this step, if any. -/
def wsStep (s : WSState) : WSEvent → WSState × Option Nat
  | .opened => ({ s with reconnectAttempts := 0 }, none)
  | .closed =>
      if !s.isManualClose && s.reconnectAttempts < maxReconnectAttempts then
        let attempts := s.reconnectAttempts + 1
        ({ s with reconnectAttempts := attempts },
          some (reconnectDelay * 2 ^ (attempts - 1)))
      else (s, none)
  | .manualDisconnect => ({ s with isManualClose := true }, none)

/-- Run a sequence of transport events, collecting the delays of all
scheduled reconnection attempts in order. -/
def wsRun (s : WSState) : List WSEvent → WSState × List Nat
  | [] => (s, [])
  | e :: es =>
    let p := wsStep s e
    let q := wsRun p.1 es
    (q.1, p.2.toList ++ q.2)

/-- A freshly constructed manager. -/
def initWSState : WSState := { reconnectAttempts := 0, isManualClose := false }

theorem wsRun_attempts_le (evs : List WSEvent) (s : WSState)
    (h : s.reconnectAttempts ≤ maxReconnectAttempts) :
    (wsRun s evs).1.reconnectAttempts ≤ maxReconnectAttempts := by
  induction evs generalizing s with
  | nil => simpa [wsRun] using h
  | cons e es ih =>
    simp only [wsRun]
    cases e with
    | opened => exact ih _ (by simp [wsStep, maxReconnectAttempts])
    | closed =>
      by_cases hc : !s.isManualClose ∧
          s.reconnectAttempts < maxReconnectAttempts
      · have : wsStep s .closed =
            ({ s with reconnectAttempts := s.reconnectAttempts + 1 },
              some (reconnectDelay * 2 ^ (s.reconnectAttempts + 1 - 1))) := by
          simp [wsStep, hc.1, hc.2]
        rw [this]
        exact ih _ (by simpa using hc.2)
      · have : wsStep s .closed = (s, none) := by
          simp only [wsStep, ite_eq_right_iff]
          intro hcon
          simp only [Bool.and_eq_true, Bool.not_eq_true', decide_eq_true_eq]
            at hcon
          exact absurd ⟨by simp [hcon.1], hcon.2⟩ hc
        rw [this]
        exact ih _ h
    | manualDisconnect => exact ih _ (by simpa [wsStep] using h)

theorem wsRun_count_of_no_open (evs : List WSEvent) (s : WSState)
    (h : WSEvent.opened ∉ evs) :
    (wsRun s evs).1.reconnectAttempts =
      s.reconnectAttempts + ((wsRun s evs).2).length := by
  induction evs generalizing s with
  | nil => simp [wsRun]
  | cons e es ih =>
    have hne : e ≠ WSEvent.opened := fun hc => h (hc ▸ List.mem_cons_self e es)
    have hes : WSEvent.opened ∉ es := fun hc => h (List.mem_cons_of_mem e hc)
    simp only [wsRun]
    cases e with
    | opened => exact absurd rfl hne
    | closed =>
      simp only [wsStep]
      split
      · simpa [ih _ hes] using by omega
      · simpa using ih _ hes
    | manualDisconnect => simpa [wsStep] using ih _ hes

theorem wsRun_manual_no_attempts (evs : List WSEvent) (s : WSState)
    (h : s.isManualClose = true) :
    (wsRun s evs).2 = [] := by
  induction evs generalizing s with
  | nil => simp [wsRun]
  | cons e es ih =>
    cases e with
    | opened => simpa [wsRun, wsStep] using ih _ (by simpa using h)
    | closed => simp [wsRun, wsStep, h, ih _ h]
    | manualDisconnect =>
      have hrest := ih
        { reconnectAttempts := s.reconnectAttempts, isManualClose := true }
        rfl
      simpa [wsRun, wsStep] using hrest

/-- C9: (1) whenever a step schedules a reconnection attempt, the close
was not manual, it is attempt `k = reconnectAttempts + 1 ≤ 5`, and its
delay is `reconnectDelay * 2 ^ (k - 1)`; (2) as long as no connection
succeeds, a manager never schedules more than 5 reconnection attempts in
total; (3) once `disconnect()` has been called, no reconnection attempt is
ever scheduled again. -/
theorem websocket_reconnect_backoff_bounded :
    (∀ (s s1 : WSState) (e : WSEvent) (d : Nat),
      wsStep s e = (s1, some d) →
        e = WSEvent.closed ∧ s.isManualClose = false ∧
          s1.reconnectAttempts = s.reconnectAttempts + 1 ∧
          s1.reconnectAttempts ≤ maxReconnectAttempts ∧
          d = reconnectDelay * 2 ^ (s1.reconnectAttempts - 1)) ∧
    (∀ evs : List WSEvent, WSEvent.opened ∉ evs →
      ((wsRun initWSState evs).2).length ≤ maxReconnectAttempts) ∧
    (∀ (s : WSState) (evs : List WSEvent), s.isManualClose = true →
      (wsRun s evs).2 = []) := by
  refine ⟨?_, ?_, ?_⟩
  · intro s s1 e d h
    cases e with
    | opened =>
      simp only [wsStep] at h
      injection h with h1 h2
      exact Option.noConfusion h2
    | closed =>
      simp only [wsStep] at h
      split at h
      · rename_i hcond
        simp only [Bool.and_eq_true, Bool.not_eq_true', decide_eq_true_eq]
          at hcond
        injection h with h1 h2
        injection h2 with h2
        subst h1
        subst h2
        refine ⟨rfl, hcond.1, by simp, ?_, by simp⟩
        simp only
        omega
      · injection h with h1 h2
        exact Option.noConfusion h2
    | manualDisconnect =>
      simp only [wsStep] at h
      injection h with h1 h2
      exact Option.noConfusion h2
  · intro evs h
    have h1 := wsRun_count_of_no_open evs initWSState h
    have h2 := wsRun_attempts_le evs initWSState (by simp [initWSState])
    rw [show initWSState.reconnectAttempts = 0 from rfl] at h1
    omega
  · intro s evs h
    exact wsRun_manual_no_attempts evs s h

theorem websocket_reconnect_backoff_bounded_witness :
    ((wsRun initWSState
      [.closed, .closed, .closed, .closed, .closed, .closed, .closed]).2).length
        ≤ maxReconnectAttempts ∧
    (wsRun { reconnectAttempts := 0, isManualClose := true }
      [.closed, .closed]).2 = [] :=
  ⟨websocket_reconnect_backoff_bounded.2.1
      [.closed, .closed, .closed, .closed, .closed, .closed, .closed]
      (by decide),
   websocket_reconnect_backoff_bounded.2.2
      { reconnectAttempts := 0, isManualClose := true }
      [.closed, .closed] rfl⟩

end WSManager

namespace WebRTC

/-- An ICE candidate payload (`RTCIceCandidateInit`). -/
structure IceCandidate where
  cand : String
deriving DecidableEq, Repr

/-- A session description payload (`RTCSessionDescriptionInit`). -/
structure SessionDesc where
  sdp : String
deriving DecidableEq, Repr

/-- `RTCPeerConnectionState`. -/
inductive ConnState where
  | new | connecting | connected | disconnected | failed | closed
deriving DecidableEq, Repr

/-- The observable state of one `RTCPeerConnection`: an identity tag
distinguishing distinct `new RTCPeerConnection(...)` objects, the local
and remote descriptions, the candidates applied via `addIceCandidate`, and
the connection state. -/
structure PeerConnection where
  pcId : Nat
  localDesc : Option SessionDesc
  remoteDesc : Option SessionDesc
  appliedCandidates : List IceCandidate
  connectionState : ConnState
deriving DecidableEq, Repr

/-- A signaling message sent through the `WebSocketManager`. -/
inductive OutMsg where
  | offer (sdp : SessionDesc) (target : String)
  | answer (sdp : SessionDesc) (target : String)
deriving DecidableEq, Repr

/-- `Map.set` on the participant-id-keyed connection map: replace the
binding if the key is present, append it otherwise. -/
def mapSet (k : String) (v : PeerConnection) :
    List (String × PeerConnection) → List (String × PeerConnection)
  | [] => [(k, v)]
  | e :: rest =>
      if e.1 == k then (k, v) :: rest else e :: mapSet k v rest

/-- The `WebRTCManager` fields the claims are about: the
`peerConnections` map and a counter supplying identities for freshly
constructed `RTCPeerConnection` objects. -/
structure ManagerState where
  peerConnections : List (String × PeerConnection)
  nextPcId : Nat
deriving DecidableEq, Repr

/-- `createPeerConnection(participantId)`: constructs a fresh
`RTCPeerConnection` (no descriptions, no applied candidates, state `new`),
installs it in `peerConnections` under the participant id (replacing any
existing entry) and returns it. -/
def createPeerConnection (participantId : String) (st : ManagerState) :
    PeerConnection × ManagerState :=
  let pc : PeerConnection :=
    { pcId := st.nextPcId, localDesc := none, remoteDesc := none,
      appliedCandidates := [], connectionState := .new }
  (pc, { st with peerConnections := mapSet participantId pc st.peerConnections,
                 nextPcId := st.nextPcId + 1 })

/-- `createOffer(participantId)`: creates a peer connection, sets the
generated offer (a parameter here) as its local description and sends the
offer to the participant. -/
def createOffer (participantId : String) (offer : SessionDesc)
    (st : ManagerState) : ManagerState × List OutMsg :=
  let p := createPeerConnection participantId st
  let pc1 := { p.1 with localDesc := some offer }
  ({ p.2 with peerConnections := mapSet participantId pc1 p.2.peerConnections },
   [.offer offer participantId])

/-- `handleOffer(offer, participantId)`: unconditionally creates a fresh
peer connection for the participant, sets the offer as its remote
description, the generated answer (a parameter here) as its local
description and sends the answer back. -/
def handleOffer (offer answer : SessionDesc) (participantId : String)
    (st : ManagerState) : ManagerState × List OutMsg :=
  let p := createPeerConnection participantId st
  let pc1 := { p.1 with remoteDesc := some offer, localDesc := some answer }
  ({ p.2 with peerConnections := mapSet participantId pc1 p.2.peerConnections },
   [.answer answer participantId])

/-- `handleIceCandidate(candidate, participantId)`: if no peer connection
exists for the participant, an error is logged and the handler returns
with the state unchanged; otherwise the candidate is applied to the
matching connection via `addIceCandidate`. -/
def handleIceCandidate (candidate : IceCandidate) (participantId : String)
    (st : ManagerState) : ManagerState :=
  match List.lookup participantId st.peerConnections with
  | none => st
  | some pc =>
      let pc1 : PeerConnection :=
        { pc with appliedCandidates := pc.appliedCandidates ++ [candidate] }
      { st with peerConnections :=
          mapSet participantId pc1 st.peerConnections }

/-- `connectToParticipant(participantId)`: if the map already has a
connection for the id, logs and returns; otherwise creates and sends an
offer. -/
def connectToParticipant (participantId : String) (offer : SessionDesc)
    (st : ManagerState) : ManagerState × List OutMsg :=
  if (List.lookup participantId st.peerConnections).isSome then (st, [])
  else createOffer participantId offer st

/-- Process a sequence of join events, each triggering
`connectToParticipant`. -/
def joinFold (st : ManagerState) :
    List (String × SessionDesc) → ManagerState
  | [] => st
  | e :: es => joinFold (connectToParticipant e.1 e.2 st).1 es

/-- The number of simultaneous map entries for one remote id. -/
def countKey (k : String) (m : List (String × PeerConnection)) : Nat :=
  (m.filter (fun e => e.1 == k)).length

theorem lookup_mapSet_self (k : String) (v : PeerConnection)
    (m : List (String × PeerConnection)) :
    List.lookup k (mapSet k v m) = some v := by
  induction m with
  | nil => simp [mapSet, List.lookup]
  | cons e rest ih =>
    by_cases h : e.1 = k
    · simp [mapSet, h, List.lookup]
    · have hek : (e.1 == k) = false := beq_eq_false_iff_ne.mpr h
      have hke : (k == e.1) = false :=
        beq_eq_false_iff_ne.mpr (fun hc => h hc.symm)
      simp [mapSet, hek, List.lookup, hke, ih]

theorem lookup_none_countKey (k : String)
    (m : List (String × PeerConnection)) (h : List.lookup k m = none) :
    countKey k m = 0 := by
  induction m with
  | nil => simp [countKey]
  | cons e rest ih =>
    by_cases he : e.1 = k
    · exfalso
      simp [List.lookup, he] at h
    · have hke : (k == e.1) = false :=
        beq_eq_false_iff_ne.mpr (fun hc => he hc.symm)
      have hek : (e.1 == k) = false := beq_eq_false_iff_ne.mpr he
      simp only [List.lookup, hke] at h
      simpa [countKey, List.filter_cons, hek] using ih h

theorem mapSet_of_lookup_none (k : String) (v : PeerConnection)
    (m : List (String × PeerConnection)) (h : List.lookup k m = none) :
    mapSet k v m = m ++ [(k, v)] := by
  induction m with
  | nil => simp [mapSet]
  | cons e rest ih =>
    by_cases he : e.1 = k
    · exfalso
      simp [List.lookup, he] at h
    · have hke : (k == e.1) = false :=
        beq_eq_false_iff_ne.mpr (fun hc => he hc.symm)
      have hek : (e.1 == k) = false := beq_eq_false_iff_ne.mpr he
      simp only [List.lookup, hke] at h
      simp [mapSet, hek, ih h]

theorem countKey_mapSet_of_mem (k j : String) (v pc : PeerConnection)
    (m : List (String × PeerConnection))
    (h : List.lookup k m = some pc) :
    countKey j (mapSet k v m) = countKey j m := by
  induction m with
  | nil => simp [List.lookup] at h
  | cons e rest ih =>
    by_cases he : e.1 = k
    · have hek : (e.1 == k) = true := beq_iff_eq.mpr he
      simp only [mapSet, hek, if_true]
      cases hkj : (k == j) <;>
        simp [countKey, List.filter_cons, he, hkj]
    · have hke : (k == e.1) = false :=
        beq_eq_false_iff_ne.mpr (fun hc => he hc.symm)
      have hek : (e.1 == k) = false := beq_eq_false_iff_ne.mpr he
      simp only [List.lookup, hke] at h
      have hrec := ih h
      simp only [countKey, List.filter_cons] at hrec ⊢
      cases hej : (e.1 == j) <;> simp [mapSet, hek, hej, hrec]

theorem countKey_mapSet_le (k j : String) (v : PeerConnection)
    (m : List (String × PeerConnection)) (h : countKey j m ≤ 1) :
    countKey j (mapSet k v m) ≤ 1 := by
  rcases hl : List.lookup k m with _ | pc
  · rw [mapSet_of_lookup_none k v m hl]
    by_cases hkj : k = j
    · subst hkj
      have h0 := lookup_none_countKey k m hl
      simp only [countKey, List.filter_append] at h0 ⊢
      simp [h0]
    · have hf : (k == j) = false := beq_eq_false_iff_ne.mpr hkj
      simpa [countKey, List.filter_append, hf] using h
  · rw [countKey_mapSet_of_mem k j v pc m hl]
    exact h

theorem countKey_connectTo (st : ManagerState) (pid j : String)
    (offer : SessionDesc) (h : countKey j st.peerConnections ≤ 1) :
    countKey j (connectToParticipant pid offer st).1.peerConnections ≤ 1 := by
  simp only [connectToParticipant]
  split
  · exact h
  · simp only [createOffer, createPeerConnection]
    exact countKey_mapSet_le _ _ _ _ (countKey_mapSet_le _ _ _ _ h)

theorem countKey_joinFold (evs : List (String × SessionDesc))
    (st : ManagerState) (j : String)
    (h : countKey j st.peerConnections ≤ 1) :
    countKey j (joinFold st evs).peerConnections ≤ 1 := by
  induction evs generalizing st with
  | nil => simpa [joinFold] using h
  | cons e es ih =>
    simp only [joinFold]
    exact ih _ (countKey_connectTo st e.1 j e.2 h)

/-- C4: `connectToParticipant` on a participant that already has a peer
connection is a silent no-op — the state is unchanged and no offer is
sent; consequently, starting from any state with at most one connection
per remote id, no sequence of (possibly duplicate) join events ever
produces two simultaneous connections to the same remote id. -/
theorem connectToParticipant_idempotent_no_duplicates :
    (∀ (st : ManagerState) (pid : String) (o : SessionDesc)
        (pc : PeerConnection),
      List.lookup pid st.peerConnections = some pc →
        connectToParticipant pid o st = (st, [])) ∧
    (∀ (st : ManagerState) (evs : List (String × SessionDesc)) (pid : String),
      countKey pid st.peerConnections ≤ 1 →
        countKey pid (joinFold st evs).peerConnections ≤ 1) := by
  constructor
  · intro st pid o pc h
    simp [connectToParticipant, h]
  · intro st evs pid h
    exact countKey_joinFold evs st pid h

theorem connectToParticipant_idempotent_witness :
    connectToParticipant "p1" { sdp := "o" }
      { peerConnections :=
          [("p1", { pcId := 0, localDesc := none, remoteDesc := none,
                    appliedCandidates := [], connectionState := .new })],
        nextPcId := 1 }
      = ({ peerConnections :=
            [("p1", { pcId := 0, localDesc := none, remoteDesc := none,
                      appliedCandidates := [], connectionState := .new })],
           nextPcId := 1 }, []) :=
  connectToParticipant_idempotent_no_duplicates.1 _ "p1" { sdp := "o" }
    { pcId := 0, localDesc := none, remoteDesc := none,
      appliedCandidates := [], connectionState := .new } rfl

/-- C3 counterexample: with no peer connection for `"p1"`, an incoming
candidate leaves the manager state completely unchanged — it is
discarded, not buffered — and a connection created for `"p1"` right
afterwards has no applied candidates. -/
theorem ice_candidate_not_buffered_counterexample :
    handleIceCandidate { cand := "c1" } "p1"
        { peerConnections := [], nextPcId := 0 }
      = { peerConnections := [], nextPcId := 0 } ∧
    (List.lookup "p1"
        (handleOffer { sdp := "o" } { sdp := "a" } "p1"
          (handleIceCandidate { cand := "c1" } "p1"
            { peerConnections := [], nextPcId := 0 })).1.peerConnections).map
        (fun pc => pc.appliedCandidates)
      = some [] := by
  constructor
  · rfl
  · rfl

/-- C3 (amended): `handleIceCandidate` applies the candidate to the
matching connection when one exists; when none exists it logs an error
and returns with the state unchanged — the candidate is discarded, not
buffered. -/
theorem handleIceCandidate_applies_or_drops :
    (∀ (st : ManagerState) (c : IceCandidate) (pid : String),
      List.lookup pid st.peerConnections = none →
        handleIceCandidate c pid st = st) ∧
    (∀ (st : ManagerState) (c : IceCandidate) (pid : String)
        (pc : PeerConnection),
      List.lookup pid st.peerConnections = some pc →
        List.lookup pid (handleIceCandidate c pid st).peerConnections =
          some { pc with
                   appliedCandidates := pc.appliedCandidates ++ [c] }) := by
  constructor
  · intro st c pid h
    simp [handleIceCandidate, h]
  · intro st c pid pc h
    simp [handleIceCandidate, h, lookup_mapSet_self]

theorem handleIceCandidate_applies_witness :
    List.lookup "p1"
      (handleIceCandidate { cand := "c9" } "p1"
        { peerConnections :=
            [("p1", { pcId := 4, localDesc := none, remoteDesc := none,
                      appliedCandidates := [{ cand := "c0" }],
                      connectionState := .connected })],
          nextPcId := 5 }).peerConnections
      = some { pcId := 4, localDesc := none, remoteDesc := none,
               appliedCandidates := [{ cand := "c0" }, { cand := "c9" }],
               connectionState := .connected } := by
  have h := handleIceCandidate_applies_or_drops.2
    { peerConnections :=
        [("p1", { pcId := 4, localDesc := none, remoteDesc := none,
                  appliedCandidates := [{ cand := "c0" }],
                  connectionState := .connected })],
      nextPcId := 5 }
    { cand := "c9" } "p1"
    { pcId := 4, localDesc := none, remoteDesc := none,
      appliedCandidates := [{ cand := "c0" }],
      connectionState := .connected } rfl
  simpa using h

/-- C5 counterexample: with an established (`connected`) connection for
`"p1"`, a later duplicate offer is not rejected: `handleOffer` replaces
the existing connection with a freshly created one and sends an answer. -/
theorem duplicate_offer_not_rejected_counterexample :
    List.lookup "p1"
        (handleOffer { sdp := "o2" } { sdp := "a2" } "p1"
          { peerConnections :=
              [("p1", { pcId := 0, localDesc := some { sdp := "ld" },
                        remoteDesc := some { sdp := "rd" },
                        appliedCandidates := [],
                        connectionState := .connected })],
            nextPcId := 1 }).1.peerConnections
      ≠ some { pcId := 0, localDesc := some { sdp := "ld" },
               remoteDesc := some { sdp := "rd" }, appliedCandidates := [],
               connectionState := .connected } ∧
    (handleOffer { sdp := "o2" } { sdp := "a2" } "p1"
        { peerConnections :=
            [("p1", { pcId := 0, localDesc := some { sdp := "ld" },
                      remoteDesc := some { sdp := "rd" },
                      appliedCandidates := [],
                      connectionState := .connected })],
          nextPcId := 1 }).2
      = [.answer { sdp := "a2" } "p1"] := by
  constructor
  · decide
  · rfl

/-- C5 (amended): `handleOffer` never rejects an offer: whatever the
existing state — including an established connection for the sender — it
creates a fresh peer connection, installs it in place of any existing
entry for that participant, sets the remote/local descriptions and sends
an answer. -/
theorem handleOffer_always_replaces (st : ManagerState)
    (offer answer : SessionDesc) (pid : String) :
    List.lookup pid (handleOffer offer answer pid st).1.peerConnections =
      some { pcId := st.nextPcId, localDesc := some answer,
             remoteDesc := some offer, appliedCandidates := [],
             connectionState := .new } ∧
    (handleOffer offer answer pid st).2 = [.answer answer pid] := by
  constructor
  · simp [handleOffer, createPeerConnection, lookup_mapSet_self]
  · rfl

theorem handleOffer_always_replaces_witness :
    List.lookup "p2"
      (handleOffer { sdp := "o3" } { sdp := "a3" } "p2"
        { peerConnections := [], nextPcId := 7 }).1.peerConnections =
      some { pcId := 7, localDesc := some { sdp := "a3" },
             remoteDesc := some { sdp := "o3" }, appliedCandidates := [],
             connectionState := .new } :=
  (handleOffer_always_replaces { peerConnections := [], nextPcId := 7 }
    { sdp := "o3" } { sdp := "a3" } "p2").1

/-- The kind of a `MediaStreamTrack`. -/
inductive TrackKind where
  | video | audio
deriving DecidableEq, Repr

/-- A `MediaStreamTrack`: its kind and its `enabled` flag. -/
structure MediaTrack where
  kind : TrackKind
  enabled : Bool
deriving DecidableEq, Repr

/-- Assigning `track.enabled = !track.enabled` to the first track of the
given kind (the track object returned by `getVideoTracks()[0]` /
`getAudioTracks()[0]` is aliased inside the stream, so the stream sees
the flip). -/
def flipFirst (k : TrackKind) : List MediaTrack → List MediaTrack
  | [] => []
  | t :: ts =>
      if t.kind == k then { t with enabled := !t.enabled } :: ts
      else t :: flipFirst k ts

/-- The common shape of `toggleVideo` / `toggleAudio`: with no local
stream, return false; with no track of the kind, return false; otherwise
flip the first such track's `enabled` flag and return the new value.
Returns the resulting stream alongside the returned Bool. -/
def toggleTrack (k : TrackKind) (localStream : Option (List MediaTrack)) :
    Option (List MediaTrack) × Bool :=
  match localStream with
  | none => (none, false)
  | some tracks =>
      match tracks.find? (fun t => t.kind == k) with
      | none => (some tracks, false)
      | some t => (some (flipFirst k tracks), !t.enabled)

/-- `WebRTCManager.toggleVideo`. -/
def toggleVideo (localStream : Option (List MediaTrack)) :
    Option (List MediaTrack) × Bool :=
  toggleTrack .video localStream

/-- `WebRTCManager.toggleAudio`. -/
def toggleAudio (localStream : Option (List MediaTrack)) :
    Option (List MediaTrack) × Bool :=
  toggleTrack .audio localStream

theorem flipFirst_flipFirst (k : TrackKind) (ts : List MediaTrack) :
    flipFirst k (flipFirst k ts) = ts := by
  induction ts with
  | nil => simp [flipFirst]
  | cons t rest ih =>
    by_cases h : t.kind == k
    · obtain ⟨tk, te⟩ := t
      simp only at h
      simp [flipFirst, h]
    · simp [flipFirst, h, ih]

theorem find?_flipFirst_isSome (k : TrackKind) (ts : List MediaTrack) :
    ((flipFirst k ts).find? (fun t => t.kind == k)).isSome =
      (ts.find? (fun t => t.kind == k)).isSome := by
  induction ts with
  | nil => simp [flipFirst]
  | cons t rest ih =>
    by_cases h : t.kind == k
    · simp [flipFirst, h, List.find?]
    · simp only [flipFirst, h, if_false, Bool.false_eq_true]
      simp only [List.find?, h]
      exact ih

/-- C10: with no local stream or no track of the requested kind,
`toggleVideo`/`toggleAudio` return false and leave the stream unchanged;
with a matching track they flip the first such track's `enabled` flag and
return the new value; hence two consecutive calls restore the stream —
and in particular the track's original `enabled` state. -/
theorem toggleTrack_spec :
    (∀ k, toggleTrack k none = (none, false)) ∧
    (∀ k (tracks : List MediaTrack),
      tracks.find? (fun t => t.kind == k) = none →
        toggleTrack k (some tracks) = (some tracks, false)) ∧
    (∀ k (tracks : List MediaTrack) (t : MediaTrack),
      tracks.find? (fun t => t.kind == k) = some t →
        toggleTrack k (some tracks) =
          (some (flipFirst k tracks), !t.enabled)) ∧
    (∀ k (tracks : List MediaTrack),
      (toggleTrack k (toggleTrack k (some tracks)).1).1 = some tracks) ∧
    toggleVideo = toggleTrack .video ∧ toggleAudio = toggleTrack .audio := by
  refine ⟨fun k => rfl, ?_, ?_, ?_, rfl, rfl⟩
  · intro k tracks h
    simp [toggleTrack, h]
  · intro k tracks t h
    simp [toggleTrack, h]
  · intro k tracks
    rcases h : tracks.find? (fun t => t.kind == k) with _ | t
    · simp [toggleTrack, h]
    · simp only [toggleTrack, h]
      have hs : ((flipFirst k tracks).find?
          (fun t => t.kind == k)).isSome = true := by
        rw [find?_flipFirst_isSome, h]
        rfl
      rcases h2 : (flipFirst k tracks).find? (fun t => t.kind == k) with _ | t2
      · rw [h2] at hs
        exact Bool.noConfusion hs
      · simp [h2, flipFirst_flipFirst]

theorem toggleTrack_spec_witness :
    toggleTrack .video
        (some [{ kind := .audio, enabled := true },
               { kind := .video, enabled := true },
               { kind := .video, enabled := false }]) =
      (some [{ kind := .audio, enabled := true },
             { kind := .video, enabled := false },
             { kind := .video, enabled := false }], false) := by
  have h := toggleTrack_spec.2.2.1 .video
    [{ kind := .audio, enabled := true },
     { kind := .video, enabled := true },
     { kind := .video, enabled := false }]
    { kind := .video, enabled := true } rfl
  simpa [flipFirst] using h

end WebRTC
